import Mathlib

/-!
# Verification of the SIH25 minimal RAG backend

Shallow embedding of `src/sih_rag/main_minimal.py` and
`src/sih_rag/crew_pipeline_simple.py`.

Python dictionaries are modelled as association lists that preserve
insertion order (as CPython dicts do); dict assignment updates an existing
binding in place and appends a fresh binding at the end.  Fallible calls
(file system, PDF reader, the Groq LLM client) are modelled with `Except`
and an explicit environment record.  `cachetools.LFUCache` is modelled
faithfully: a per-key integer counter that is decremented on every
`__getitem__` and `__setitem__` (so the stored counter is the negation of
the access count), with `popitem` evicting the key whose counter value is
maximal, ties broken by earliest insertion (the behaviour of
`Counter.most_common(1)` over an insertion-ordered counter).
-/
/-- Ordered-dict lookup: first binding of the key (CPython dicts have unique
keys, so "first" is "the" binding). -/
def alookup {κ ν : Type} [DecidableEq κ] : List (κ × ν) → κ → Option ν
  | [], _ => none
  | e :: t, k' => if k' = e.1 then some e.2 else alookup t k'

/-- Ordered-dict assignment `d[k] = v`: update the existing binding in place,
or append a fresh binding at the end. -/
def aset {κ ν : Type} [DecidableEq κ] (m : List (κ × ν)) (k : κ) (v : ν) : List (κ × ν) :=
  if (alookup m k).isSome then
    m.map (fun e => if e.1 = k then (k, v) else e)
  else
    m ++ [(k, v)]

/-- Ordered-dict deletion (`d.pop(k)` / `del d[k]`): remove the binding. -/
def aerase {κ ν : Type} [DecidableEq κ] (m : List (κ × ν)) (k : κ) : List (κ × ν) :=
  m.eraseP (fun e => decide (e.1 = k))

/-! ## Keyword search (`crew_pipeline_simple.py`, `simple_text_search`) -/

/-- `startsWithChars needle hay`: `needle` is a leading segment of `hay`
(character-level prefix test used by the substring test below). -/
def startsWithChars : List Char → List Char → Bool
  | [], _ => true
  | _ :: _, [] => false
  | a :: as, b :: bs => a == b && startsWithChars as bs

/-- Python's substring test `needle in hay` on character lists: some leading
segment of some suffix of `hay` equals `needle`. -/
def hasSub (needle : List Char) : List Char → Bool
  | [] => needle.isEmpty
  | h :: t => startsWithChars needle (h :: t) || hasSub needle t

/-- Python `str.lower()`.  Python strings are sequences of code points, so
string functions are modelled character-wise on `String.data`; case mapping
is `Char.toLower` (ASCII, which covers every literal in this program). -/
def pyLower (s : String) : String := String.mk (s.data.map Char.toLower)

/-- Python `str.strip()` with no argument: drop leading and trailing
whitespace. -/
def pyStrip (s : String) : String :=
  String.mk (((s.data.dropWhile Char.isWhitespace).reverse.dropWhile Char.isWhitespace).reverse)

/-- Python `str.endswith(post)`. -/
def pyEndsWith (s post : String) : Bool :=
  startsWithChars post.data.reverse s.data.reverse

/-- Worker for `pySplit`: `cur` is the reversed current word. -/
def pySplitChars : List Char → List Char → List String
  | [], cur => if cur.isEmpty then [] else [String.mk cur.reverse]
  | c :: rest, cur =>
    if c.isWhitespace then
      if cur.isEmpty then pySplitChars rest []
      else String.mk cur.reverse :: pySplitChars rest []
    else pySplitChars rest (c :: cur)

/-- Python `str.split()` with no argument: split on runs of whitespace,
discarding empty pieces. -/
def pySplit (s : String) : List String := pySplitChars s.data []

/-- The per-text score of `simple_text_search`:
`sum(1 for word in query_words if word in text_lower)` after
`query_words = query.lower().split()` and `text_lower = text.lower()`. -/
def searchScore (query text : String) : Nat :=
  let query_words := pySplit (pyLower query)
  let text_lower := pyLower text
  (query_words.map (fun word => if hasSub word.data text_lower.data then 1 else 0)).sum

/-- The comparison of `scored_texts.sort(key=lambda x: x[0], reverse=True)`:
earlier-or-equal means not-smaller score. -/
def scoreGE (a b : Nat × String) : Prop := b.1 ≤ a.1

instance : DecidableRel scoreGE := fun a b => Nat.decLe b.1 a.1

/-- `simple_text_search(query, texts, k)` from `crew_pipeline_simple.py`:
collect `(score, text)` for texts with positive score, sort by score
descending, take the first `k`, return the texts.  Python's `list.sort`
with `reverse=True` is a stable descending sort; `List.insertionSort`
with `scoreGE` computes exactly that (an earlier element stays before a
later element of equal score), and a stable sort under a fixed total
preorder has a unique result. -/
def simple_text_search (query : String) (texts : List String) (k : Nat := 5) : List String :=
  let scored_texts := texts.filterMap (fun text =>
    let score := searchScore query text
    if score > 0 then some (score, text) else none)
  let sorted := scored_texts.insertionSort scoreGE
  (sorted.take k).map (fun st => st.2)

/-! ## LFU caches (`cachetools.LFUCache`)

An entry is `(key, value, counter)`.  The library keeps a
`collections.Counter` next to the data dict; the counter for a key is
decremented by every `__getitem__` and `__setitem__`, so the stored
integer is the negation of the number of accesses, and
`Counter.most_common(1)` (= maximal stored counter, ties broken by
earliest insertion) is the least-frequently-accessed key.  Keys enter and
leave the data dict and the counter together, so one insertion-ordered
list models both. -/

structure LFUCache (κ ν : Type) where
  maxsize : Nat
  entries : List (κ × ν × Int)
  deriving Repr

/-- `key in cache`. -/
def LFUCache.contains {κ ν : Type} [DecidableEq κ] (c : LFUCache κ ν) (k : κ) : Bool :=
  (alookup c.entries k).isSome

/-- `cache[key]` guarded by `key in cache`: on a hit, return the value and
decrement the key's counter (count one access); on a miss, `none`. -/
def LFUCache.get {κ ν : Type} [DecidableEq κ] (c : LFUCache κ ν) (k : κ) :
    Option (ν × LFUCache κ ν) :=
  match alookup c.entries k with
  | none => none
  | some v =>
    let es := c.entries.map (fun e => if e.1 = k then (e.1, e.2.1, e.2.2 - 1) else e)
    some (v.1, { c with entries := es })

/-- `Counter.most_common(1)`: the first entry attaining the maximal stored
counter value. -/
def mostCommon1 {κ ν : Type} : List (κ × ν × Int) → Option (κ × ν × Int)
  | [] => none
  | e :: es => some (es.foldl (fun best x => if best.2.2 < x.2.2 then x else best) e)

/-- `LFUCache.popitem()`: evict the least-frequently-accessed key, i.e. the
key reported by `most_common(1)`.  On an empty cache the library raises
`KeyError`; that case is unreachable under `0 < maxsize`, and the model
returns the cache unchanged there. -/
def LFUCache.popitem {κ ν : Type} [DecidableEq κ] (c : LFUCache κ ν) : LFUCache κ ν :=
  match mostCommon1 c.entries with
  | none => c
  | some b => { c with entries := c.entries.eraseP (fun x => decide (x.1 = b.1)) }

/-- The eviction loop of `Cache.__setitem__` for unit-size values,
`while currsize + 1 > maxsize: popitem()`, run with explicit fuel so the
definition is structural.  Each iteration removes exactly one entry, so
`entries.length` iterations always suffice: when the fuel runs out the
cache is already empty and the loop guard is false anyway.  (`popitem` on
an empty cache raises `KeyError` in the library; that needs `maxsize = 0`,
which no cache of this program has.) -/
def evictLoopFuel {κ ν : Type} [DecidableEq κ] : Nat → LFUCache κ ν → LFUCache κ ν
  | 0, c => c
  | Nat.succ fuel, c =>
    if c.maxsize < c.entries.length + 1 ∧ c.entries.length ≠ 0 then
      evictLoopFuel fuel c.popitem
    else c

/-- The eviction loop, started with adequate fuel. -/
def LFUCache.evictLoop {κ ν : Type} [DecidableEq κ] (c : LFUCache κ ν) : LFUCache κ ν :=
  evictLoopFuel c.entries.length c

/-- `cache[key] = value`: an existing key is updated in place (no eviction,
unit sizes are equal); a new key first runs the eviction loop, then is
appended; in both cases the key's counter is decremented
(`self.__counter[key] -= 1`, a fresh counter starting at `0`). -/
def LFUCache.set {κ ν : Type} [DecidableEq κ] (c : LFUCache κ ν) (k : κ) (v : ν) :
    LFUCache κ ν :=
  if (alookup c.entries k).isSome then
    let es := c.entries.map (fun e => if e.1 = k then (e.1, v, e.2.2 - 1) else e)
    { c with entries := es }
  else
    let c' := c.evictLoop
    { c' with entries := c'.entries ++ [(k, v, -1)] }

/-! ## Data model of the pipeline (`crew_pipeline_simple.py`) -/

/-- One role/content message of a session's conversation history. -/
structure Msg where
  role : String
  content : String
  deriving DecidableEq, Repr

/-- One session's storage: `{"history": [], "messages": []}`. -/
structure MemRec where
  history : List Msg
  messages : List Msg
  deriving DecidableEq, Repr

/-- The value cached per PDF path: `{"texts": texts, "pdf_path": pdf_path}`. -/
structure IndexData where
  texts : List String
  pdf_path : String
  deriving DecidableEq, Repr

/-- One metadata record built by `extract_relevant_clause`
(`score` is the constant `1.0` of the source, kept as `1`). -/
structure MetaInfo where
  content : String
  pdf_name : String
  page : String
  score : Nat
  deriving DecidableEq, Repr

/-- The dictionary returned by `run_full_pipeline`. -/
structure PipeResult where
  answer : String
  metadata : List MetaInfo
  deriving DecidableEq, Repr

/-- The ambient effects of the pipeline and the HTTP endpoints:
the `GROQ_API_KEY` environment variable, whether `langchain_groq` imports,
what `llm.invoke(prompt).content` returns or raises, and the file system
(`os.path.exists`, `PdfReader` page texts where `none` is a page whose
`extract_text()` returned `None`, and `os.remove`). -/
structure Env where
  groq_api_key : Option String
  import_ok : Bool
  llm_invoke : String → Except String String
  fs_exists : String → Bool
  read_pdf : String → Except String (List (Option String))
  fs_remove : String → Except String Unit

/-- The module-level mutable state of `crew_pipeline_simple.py`. -/
structure PipeState where
  pdf_cache : LFUCache String IndexData
  query_cache : LFUCache (String × String × String) PipeResult
  sessions : List (String × MemRec)

/-- `pdf_cache = LFUCache(maxsize=10)`. -/
def pdf_cache : LFUCache String IndexData := { maxsize := 10, entries := [] }

/-- `query_cache = LFUCache(maxsize=100)`. -/
def query_cache : LFUCache (String × String × String) PipeResult :=
  { maxsize := 100, entries := [] }

/-- `MemoryManager.get_memory`: return the session's record, creating an
empty one first when the session is unknown. -/
def get_memory (sessions : List (String × MemRec)) (session_id : String) :
    MemRec × List (String × MemRec) :=
  match alookup sessions session_id with
  | some r => (r, sessions)
  | none =>
    let r : MemRec := { history := [], messages := [] }
    (r, aset sessions session_id r)

/-- `MemoryManager.reset_memory` (and the module-level `reset_memory`
helper): replace a known session's record by a fresh empty one; print and
do nothing for an unknown session. -/
def reset_memory (sessions : List (String × MemRec)) (session_id : String) :
    List (String × MemRec) :=
  if (alookup sessions session_id).isSome then
    aset sessions session_id { history := [], messages := [] }
  else sessions

/-- Worker for `basename`: split on `/`, keeping empty pieces. -/
def splitSlash : List Char → List Char → List (List Char)
  | [], cur => [cur.reverse]
  | c :: rest, cur =>
    if c = '/' then cur.reverse :: splitSlash rest []
    else splitSlash rest (c :: cur)

/-- `os.path.basename` for the POSIX paths used here: everything after the
last slash. -/
def basename (p : String) : String :=
  String.mk ((splitSlash p.data []).getLastD p.data)

/-- `load_pdf_chunks`: `[]` when the file does not exist, `[]` when
`PdfReader` raises, otherwise `page.extract_text() or ""` per page. -/
def load_pdf_chunks (env : Env) (pdf_path : String) : List String :=
  if env.fs_exists pdf_path = false then []
  else
    match env.read_pdf pdf_path with
    | Except.error _ => []
    | Except.ok pages => pages.map (fun t => t.getD "")

/-- `get_or_create_indexes`: cached index on a hit (counting the access),
otherwise build the index from the PDF text and insert it.  The source's
`isinstance(doc, str)` filter keeps everything here because the chunks are
strings by construction. -/
def get_or_create_indexes (env : Env) (pdf_path : String)
    (cache : LFUCache String IndexData) : IndexData × LFUCache String IndexData :=
  match cache.get pdf_path with
  | some ic => (ic.1, ic.2)
  | none =>
    let chunks := load_pdf_chunks env pdf_path
    let texts := chunks
    let index_data : IndexData := { texts := texts, pdf_path := pdf_path }
    (index_data, cache.set pdf_path index_data)

/-- `extract_relevant_clause`: search, then `("", [])` when nothing matched,
otherwise the joined passages and one metadata record per passage. -/
def extract_relevant_clause (env : Env) (cache : LFUCache String IndexData)
    (pdf_path user_query : String) (k : Nat) :
    (String × List MetaInfo) × LFUCache String IndexData :=
  let ic := get_or_create_indexes env pdf_path cache
  let texts := ic.1.texts
  let relevant_passages := simple_text_search user_query texts k
  if relevant_passages.isEmpty then (("", []), ic.2)
  else
    let metadata_info := relevant_passages.enum.map (fun ip =>
      { content := ip.2, pdf_name := basename pdf_path,
        page := "Page " ++ toString (ip.1 + 1), score := 1 : MetaInfo })
    ((String.intercalate "\n\n" relevant_passages, metadata_info), ic.2)

/-- The `history_text` built by `run_full_pipeline` from the chat history. -/
def history_text_of (chat_history : List Msg) : String :=
  if chat_history.isEmpty then ""
  else
    "\n\nConversation History:\n" ++
      String.join (chat_history.map (fun msg => msg.role ++ ": " ++ msg.content ++ "\n"))

/-- The prompt template of `run_full_pipeline`. -/
def prompt_template_of (history_text user_query context metadata_text : String) : String :=
  "\nYou are an intelligent assistant working for the Department of Higher Education (MoE).\n" ++
  "Your role is to help officials quickly retrieve, compare, and interpret data, rules,\n" ++
  "schemes, projects, and policies from multiple authentic documents.\n\n" ++
  "Objectives:\n" ++
  "1. Find all relevant information from provided contexts — even if scattered or overlapping.\n" ++
  "2. Combine related clauses logically, avoid repetition, and highlight any conflicting info.\n" ++
  "3. Maintain traceability by citing document names and page numbers.\n" ++
  "4. Always remain factual, concise, and policy-accurate.\n" ++
  "5. If data is insufficient or unclear, clearly state that instead of guessing.\n" ++
  "6. Use conversation history to provide contextual answers and maintain coherent dialogue.\n" ++
  history_text ++ "\n\nUser Query:\n" ++ user_query ++ "\n\nRetrieved Contexts:\n" ++
  context ++ "\n\nSource Metadata:\n" ++ metadata_text ++ "\n"

/-- The fallback `mock_answer` of `run_full_pipeline`
(`{context[:500]}...` truncates the context to 500 characters). -/
def mock_answer_of (user_query context : String) : String :=
  "\n**Mock Response (Groq API not configured)**\n\nQuestion: " ++ user_query ++
  "\n\nRetrieved Context:\n" ++ context.take 500 ++ "..." ++
  "\n\n**Note**: This is a simplified response. To enable full AI capabilities:\n" ++
  "1. Set GROQ_API_KEY environment variable\n" ++
  "2. Install langchain_groq: `pip install langchain_groq`\n" ++
  "3. Install other ML dependencies for vector search\n\n" ++
  "Current capabilities:\n✅ PDF upload and storage\n✅ Basic text search\n" ++
  "✅ Session management\n✅ File caching\n" ++
  "⚠️ AI-powered responses (requires API key)\n⚠️ Vector embeddings (requires ML libraries)\n"

/-- Tail of the mock branch of `run_full_pipeline`: build the mock answer,
append the User and Assistant messages to the given history, write the
session record back. -/
def mock_finish (user_query context : String) (metadata_info : List MetaInfo)
    (hist : List Msg) (memory : MemRec) (sessions : List (String × MemRec))
    (session_id : String) : PipeResult × List (String × MemRec) :=
  let mock_answer := mock_answer_of user_query context
  let hist2 := hist ++ [{ role := "User", content := user_query },
    { role := "Assistant", content := mock_answer }]
  let sessions2 := aset sessions session_id { memory with history := hist2 }
  ({ answer := mock_answer, metadata := metadata_info }, sessions2)

/-- The body of `run_full_pipeline` (everything inside the `@cache_query`
wrapper).  The three answer paths of the source: LLM success (history gains
User then Assistant), LLM exception (history already gained User inside the
`try`, then the mock block appends User and Assistant again), and the mock
path for a missing key or a failed `langchain_groq` import. -/
def pipeline_body (env : Env) (user_query pdf_path session_id : String) (st : PipeState) :
    PipeResult × PipeState :=
  let ec := extract_relevant_clause env st.pdf_cache pdf_path user_query 10
  let context := ec.1.1
  let metadata_info := ec.1.2
  let pdf_cache' := ec.2
  let joined := String.intercalate "\n"
    (metadata_info.map (fun m => "- Source: " ++ m.pdf_name ++ ", Page: " ++ m.page))
  let metadata_text := if joined = "" then "No metadata available." else joined
  let gm := get_memory st.sessions session_id
  let memory := gm.1
  let sessions1 := gm.2
  let chat_history := memory.history
  let history_text := history_text_of chat_history
  match env.groq_api_key with
  | none =>
    let rs := mock_finish user_query context metadata_info memory.history memory
      sessions1 session_id
    (rs.1, { pdf_cache := pdf_cache', query_cache := st.query_cache, sessions := rs.2 })
  | some _ =>
    if env.import_ok then
      let prompt := prompt_template_of history_text user_query context metadata_text
      let hist1 := memory.history ++ [{ role := "User", content := user_query }]
      match env.llm_invoke prompt with
      | Except.ok resp =>
        let hist2 := hist1 ++ [{ role := "Assistant", content := resp }]
        let sessions2 := aset sessions1 session_id { memory with history := hist2 }
        ({ answer := resp, metadata := metadata_info },
          { pdf_cache := pdf_cache', query_cache := st.query_cache, sessions := sessions2 })
      | Except.error _ =>
        let rs := mock_finish user_query context metadata_info hist1 memory
          sessions1 session_id
        (rs.1, { pdf_cache := pdf_cache', query_cache := st.query_cache, sessions := rs.2 })
    else
      let rs := mock_finish user_query context metadata_info memory.history memory
        sessions1 session_id
      (rs.1, { pdf_cache := pdf_cache', query_cache := st.query_cache, sessions := rs.2 })

/-- `run_full_pipeline` as seen by callers: the `@cache_query` wrapper
around `pipeline_body`.  A cache hit returns the cached result (counting
the access); a miss runs the body and stores its result. -/
def run_full_pipeline (env : Env) (user_query pdf_path session_id : String)
    (st : PipeState) : PipeResult × PipeState :=
  let cache_key := (user_query, pdf_path, session_id)
  match st.query_cache.get cache_key with
  | some rv => (rv.1, { st with query_cache := rv.2 })
  | none =>
    let rs := pipeline_body env user_query pdf_path session_id st
    (rs.1, { rs.2 with query_cache := rs.2.query_cache.set cache_key rs.1 })

/-! ## HTTP endpoints (`main_minimal.py`) -/

/-- `fastapi.HTTPException`: status code and detail string. -/
structure HTTPException where
  status_code : Nat
  detail : String
  deriving DecidableEq, Repr

/-- Response of `POST /pdf/upload`. -/
structure UploadResponse where
  pdf_id : String
  filename : String
  message : String
  deriving DecidableEq, Repr

/-- One metadata record of the query endpoint's mock response. -/
structure EndpointMeta where
  content : String
  pdf_name : String
  page : String
  deriving DecidableEq, Repr

/-- Response of `POST /pdf/query`. -/
structure QueryResponse where
  answer : String
  metadata : List EndpointMeta
  session_id : String
  deriving DecidableEq, Repr

/-- Response of `DELETE /pdf/{pdf_id}`. -/
structure DeleteResponse where
  message : String
  pdf_id : String
  deriving DecidableEq, Repr

/-- The `uploaded_pdfs` dict starts empty. -/
def uploaded_pdfs_init : List (String × String) := []

/-- `upload_pdf`: reject a filename that does not end in `.pdf` (400),
reject a payload over `10 * 1024 * 1024` bytes (400), otherwise write the
payload to a fresh temporary file (`tmp_path`, supplied by the operating
system) and store `basename tmp_path ↦ tmp_path`.  The payload is a byte
list; only its length is inspected. -/
def upload_pdf (filename : String) (content : List Nat) (tmp_path : String)
    (uploaded_pdfs : List (String × String)) :
    Except HTTPException UploadResponse × List (String × String) :=
  if (pyEndsWith filename ".pdf") = false then
    (Except.error { status_code := 400, detail := "❌ Only PDF files allowed" },
      uploaded_pdfs)
  else if content.length > 10 * 1024 * 1024 then
    (Except.error { status_code := 400, detail := "❌ File too large (max 10MB)" },
      uploaded_pdfs)
  else
    let pdf_path := tmp_path
    let pdf_id := basename pdf_path
    (Except.ok { pdf_id := pdf_id, filename := filename,
                 message := "✅ PDF uploaded successfully (minimal version)" },
      aset uploaded_pdfs pdf_id pdf_path)

/-- The `mock_answer` f-string of the query endpoint, followed by
`.strip()`. -/
def endpoint_mock_answer (question pdf_id session_id : String) : String :=
  let s := "\nThis is a mock response for testing purposes.\n\nQuestion: " ++ question ++
    "\nPDF: " ++ pdf_id ++ "\nSession: " ++ session_id ++
    "\n\nThe full RAG pipeline with vector search, BM25, and LLM integration is not yet available in this minimal version. \n" ++
    "To enable full functionality, please install the required ML dependencies:\n" ++
    "- langchain\n- chromadb  \n- sentence-transformers\n- transformers\n- langchain_groq\n\n" ++
    "For now, this endpoint confirms that:\n✅ PDF upload is working\n" ++
    "✅ File storage is working  \n✅ API endpoints are accessible\n" ++
    "✅ Session management is ready\n        "
  pyStrip s

/-- `query_pdf` (`POST /pdf/query`): 404 for an unknown `pdf_id`, otherwise
a mock response built only from the form fields.  The stored `pdf_path` is
read but unused. -/
def query_pdf (pdf_id question session_id : String)
    (uploaded_pdfs : List (String × String)) :
    Except HTTPException QueryResponse × List (String × String) :=
  if (alookup uploaded_pdfs pdf_id).isSome = false then
    (Except.error { status_code := 404,
                    detail := "❌ pdf_id '" ++ pdf_id ++ "' not found. Please upload the PDF first!" },
      uploaded_pdfs)
  else
    (Except.ok { answer := endpoint_mock_answer question pdf_id session_id,
                 metadata := [{ content := "Mock response", pdf_name := pdf_id, page := "N/A" }],
                 session_id := session_id },
      uploaded_pdfs)

/-- `delete_pdf` (`DELETE /pdf/{pdf_id}`): 404 for an unknown `pdf_id`;
otherwise the id is popped from the map first, then the file is removed
when it exists; a failing `os.remove` yields a 500 response (with the pop
not rolled back). -/
def delete_pdf (env : Env) (pdf_id : String) (uploaded_pdfs : List (String × String)) :
    Except HTTPException DeleteResponse × List (String × String) :=
  match alookup uploaded_pdfs pdf_id with
  | none =>
    (Except.error { status_code := 404, detail := "❌ pdf_id '" ++ pdf_id ++ "' not found" },
      uploaded_pdfs)
  | some pdf_path =>
    let m2 := aerase uploaded_pdfs pdf_id
    if env.fs_exists pdf_path then
      match env.fs_remove pdf_path with
      | Except.ok _ =>
        (Except.ok { message := "✅ Deleted " ++ pdf_id, pdf_id := pdf_id }, m2)
      | Except.error e =>
        (Except.error { status_code := 500, detail := "❌ Failed to delete: " ++ e }, m2)
    else
      (Except.ok { message := "✅ Deleted " ++ pdf_id, pdf_id := pdf_id }, m2)

/-! ## Sort-order instances for the search comparison -/

instance : IsTotal (Nat × String) scoreGE := ⟨fun a b => Nat.le_total b.1 a.1⟩

instance : IsTrans (Nat × String) scoreGE :=
  ⟨fun _ _ _ hab hbc => Nat.le_trans hbc hab⟩

/-! ## Predicates and fixtures used by the theorems -/

/-- An environment whose LLM call always raises. -/
def LLMFails (env : Env) : Prop :=
  ∀ s, ∃ err, env.llm_invoke s = Except.error err

/-- The conversation history stored for a session (empty if the session is
unknown). -/
def histOf (sessions : List (String × MemRec)) (session_id : String) : List Msg :=
  match alookup sessions session_id with
  | some r => r.history
  | none => []

/-- C1 as stated: the query endpoint would behave as the keyword-search
pipeline (`run_full_pipeline`: keyword search over the PDF's extracted
text, optional LLM call, canned fallback) for every uploaded `pdf_id` —
same answer and same retrieved contents. -/
def claimC1_statement : Prop :=
  ∀ (m : List (String × String)) (env : Env) (st : PipeState)
    (pdf_id pdf_path question session_id : String),
    alookup m pdf_id = some pdf_path →
    ∃ r, (query_pdf pdf_id question session_id m).1 = Except.ok r ∧
      r.answer = (run_full_pipeline env question pdf_path session_id st).1.answer ∧
      r.metadata.map EndpointMeta.content =
        (run_full_pipeline env question pdf_path session_id st).1.metadata.map
          MetaInfo.content

/-- A concrete environment: no API key, no `langchain_groq`, and one PDF at
`/tmp/doc1` whose single page reads `insurance policy covers fire damage`. -/
def env_c1 : Env :=
  { groq_api_key := none, import_ok := false,
    llm_invoke := fun _ => Except.error "no key",
    fs_exists := fun p => p == "/tmp/doc1",
    read_pdf := fun p =>
      if p = "/tmp/doc1" then Except.ok [some "insurance policy covers fire damage"]
      else Except.error "missing",
    fs_remove := fun _ => Except.ok () }

/-- The initial module state: both caches empty, no sessions. -/
def st_c1 : PipeState :=
  { pdf_cache := pdf_cache, query_cache := query_cache, sessions := [] }

/-! ## Concrete instances used by the witnesses -/

/-- A cache at capacity 2 used to exercise the eviction theorem: key `a`
accessed three times, key `b` once. -/
def cache_w : LFUCache String Nat :=
  { maxsize := 2, entries := [("a", 1, -3), ("b", 2, -1)] }

/-- Two sessions with one User turn each. -/
def sessions_w : List (String × MemRec) :=
  [("s1", { history := [{ role := "User", content := "hi" }], messages := [] }),
   ("s2", { history := [{ role := "User", content := "yo" }], messages := [] })]

/-- An environment whose `os.remove` always raises. -/
def env_rmfail : Env :=
  { groq_api_key := none, import_ok := false,
    llm_invoke := fun _ => Except.error "no",
    fs_exists := fun _ => true,
    read_pdf := fun _ => Except.error "r",
    fs_remove := fun _ => Except.error "permission denied" }

/-- A pipeline state whose answer cache already holds `("q", "/p", "s")`. -/
def st_hit : PipeState :=
  { pdf_cache := pdf_cache,
    query_cache := { maxsize := 100,
                     entries := [(("q", "/p", "s"), { answer := "cached", metadata := [] },
                       -1)] },
    sessions := [] }

/-! ## Theorems: dictionary lemmas, the claims and their witnesses -/

theorem alookup_map_update {κ ν : Type} [DecidableEq κ] (m : List (κ × ν)) (k k' : κ) (v : ν) :
    alookup (m.map (fun e => if e.1 = k then (k, v) else e)) k' =
      if k' = k then (alookup m k).map (fun _ => v) else alookup m k' := by
  induction m with
  | nil => by_cases hk : k' = k <;> simp [alookup, hk]
  | cons e t ih =>
    obtain ⟨a, b⟩ := e
    simp only [List.map_cons]
    by_cases hak : a = k
    · rw [show (if ((a, b) : κ × ν).1 = k then (k, v) else (a, b)) = (k, v) from if_pos hak]
      subst hak
      by_cases hk : k' = a <;> simp [alookup, hk, ih]
    · rw [show (if ((a, b) : κ × ν).1 = k then (k, v) else (a, b)) = (a, b) from if_neg hak]
      by_cases hk : k' = a
      · subst hk
        have hne : ¬ k' = k := hak
        simp [alookup, hne]
      · have hka : ¬ k = a := fun h => hak h.symm
        simp [alookup, hk, hka, ih]

theorem alookup_append {κ ν : Type} [DecidableEq κ] (m m' : List (κ × ν)) (k' : κ) :
    alookup (m ++ m') k' = (alookup m k').or (alookup m' k') := by
  induction m with
  | nil => simp [alookup]
  | cons e t ih =>
    obtain ⟨a, b⟩ := e
    by_cases h : k' = a <;> simp [alookup, h, ih]

theorem alookup_aset_self {κ ν : Type} [DecidableEq κ] (m : List (κ × ν)) (k : κ) (v : ν) :
    alookup (aset m k v) k = some v := by
  unfold aset
  split
  case isTrue h =>
    obtain ⟨w, hw⟩ := Option.isSome_iff_exists.mp h
    rw [alookup_map_update]
    simp [hw]
  case isFalse h =>
    have hnone : alookup m k = none := Option.not_isSome_iff_eq_none.mp h
    rw [alookup_append]
    simp [hnone, alookup]

theorem alookup_aset_ne {κ ν : Type} [DecidableEq κ] (m : List (κ × ν)) (k k' : κ) (v : ν)
    (hne : k' ≠ k) : alookup (aset m k v) k' = alookup m k' := by
  unfold aset
  split
  · rw [alookup_map_update]
    simp [hne]
  · rw [alookup_append]
    simp [alookup, hne]

theorem mostCommon1_spec {κ ν : Type} (e : κ × ν × Int) (es : List (κ × ν × Int)) :
    ∃ b, mostCommon1 (e :: es) = some b ∧ b ∈ e :: es ∧
      ∀ x ∈ e :: es, x.2.2 ≤ b.2.2 := by
  suffices h : ∀ (es : List (κ × ν × Int)) (acc : κ × ν × Int),
      (es.foldl (fun best x => if best.2.2 < x.2.2 then x else best) acc = acc ∨
        es.foldl (fun best x => if best.2.2 < x.2.2 then x else best) acc ∈ es) ∧
      acc.2.2 ≤ (es.foldl (fun best x => if best.2.2 < x.2.2 then x else best) acc).2.2 ∧
      ∀ x ∈ es, x.2.2 ≤ (es.foldl (fun best x => if best.2.2 < x.2.2 then x else best) acc).2.2 by
    refine ⟨_, rfl, ?_, ?_⟩
    · rcases (h es e).1 with h1 | h1
      · rw [h1]; exact List.mem_cons_self _ _
      · exact List.mem_cons_of_mem _ h1
    · intro x hx
      rcases List.mem_cons.mp hx with rfl | hx
      · exact (h es x).2.1
      · exact (h es e).2.2 x hx
  intro es
  induction es with
  | nil => exact fun acc => ⟨Or.inl rfl, le_refl _, by simp⟩
  | cons y ys ih =>
    intro acc
    by_cases hlt : acc.2.2 < y.2.2
    · refine ⟨?_, ?_, ?_⟩
      · rcases (ih y).1 with h1 | h1
        · simp [List.foldl_cons, if_pos hlt, h1]
        · simp only [List.foldl_cons, if_pos hlt]
          exact Or.inr (List.mem_cons_of_mem _ h1)
      · simp only [List.foldl_cons, if_pos hlt]
        exact le_of_lt (lt_of_lt_of_le hlt (ih y).2.1)
      · intro x hx
        simp only [List.foldl_cons, if_pos hlt]
        rcases List.mem_cons.mp hx with rfl | hx
        · exact (ih x).2.1
        · exact (ih y).2.2 x hx
    · refine ⟨?_, ?_, ?_⟩
      · rcases (ih acc).1 with h1 | h1
        · simp [List.foldl_cons, if_neg hlt, h1]
        · simp only [List.foldl_cons, if_neg hlt]
          exact Or.inr (List.mem_cons_of_mem _ h1)
      · simp only [List.foldl_cons, if_neg hlt]
        exact (ih acc).2.1
      · intro x hx
        simp only [List.foldl_cons, if_neg hlt]
        rcases List.mem_cons.mp hx with rfl | hx
        · exact le_trans (le_of_not_lt hlt) (ih acc).2.1
        · exact (ih acc).2.2 x hx

theorem LFUCache.popitem_length_lt {κ ν : Type} [DecidableEq κ] (c : LFUCache κ ν)
    (h : c.entries ≠ []) : c.popitem.entries.length < c.entries.length := by
  unfold LFUCache.popitem
  match hes : c.entries with
  | [] => exact absurd hes h
  | e :: es =>
    obtain ⟨b, hb, hbmem, _⟩ := mostCommon1_spec e es
    rw [hb]
    simp only
    rw [List.length_eraseP_of_mem hbmem (by simp)]
    simp

theorem LFUCache.popitem_maxsize {κ ν : Type} [DecidableEq κ] (c : LFUCache κ ν) :
    c.popitem.maxsize = c.maxsize := by
  unfold LFUCache.popitem
  cases mostCommon1 c.entries <;> rfl

/-- C4: for every query string and text, the search score of the text is the
count of keyword matches: the number of words obtained by string splitting
the lowercased query that occur as substrings of the lowercased text
(counted with multiplicity over the query words). -/
theorem searchScore_counts_keyword_matches (query text : String) :
    searchScore query text =
      ((pySplit (pyLower query)).filter
        (fun word => hasSub word.data (pyLower text).data)).length := by
  unfold searchScore
  induction pySplit (pyLower query) with
  | nil => rfl
  | cons w ws ih =>
    by_cases h : hasSub w.data (pyLower text).data <;>
      simp [List.filter_cons, h, ih, Nat.add_comm]

theorem scored_texts_eq (query : String) (texts : List String) :
    (texts.filterMap (fun text =>
        let score := searchScore query text
        if score > 0 then some (score, text) else none)) =
      (texts.filter (fun t => 0 < searchScore query t)).map
        (fun t => (searchScore query t, t)) := by
  induction texts with
  | nil => rfl
  | cons t ts ih =>
    by_cases h : 0 < searchScore query t <;>
      simp [List.filterMap_cons, List.filter_cons, h, ih]

/-- C3: for every query, list of texts and bound `k`, `simple_text_search`
returns only texts of positive score (so zero-score texts never appear),
in non-increasing score order, with length `min k (number of positive
texts)`, and when the positive texts fit in `k` the result is exactly the
positive texts (a permutation of them). -/
theorem simple_text_search_spec (query : String) (texts : List String) (k : Nat) :
    (∀ t ∈ simple_text_search query texts k, 0 < searchScore query t) ∧
    (simple_text_search query texts k).Pairwise
      (fun a b => searchScore query b ≤ searchScore query a) ∧
    (simple_text_search query texts k).length =
      min k (texts.filter (fun t => 0 < searchScore query t)).length ∧
    ((texts.filter (fun t => 0 < searchScore query t)).length ≤ k →
      (simple_text_search query texts k).Perm
        (texts.filter (fun t => 0 < searchScore query t))) := by
  unfold simple_text_search
  rw [scored_texts_eq]
  dsimp only
  set pos := texts.filter (fun t => 0 < searchScore query t) with hpos
  set g : String → Nat × String := fun t => (searchScore query t, t) with hg
  set sorted := (pos.map g).insertionSort scoreGE with hsorted
  have hperm : sorted.Perm (pos.map g) := List.perm_insertionSort scoreGE (pos.map g)
  have hmem : ∀ x ∈ sorted, x.1 = searchScore query x.2 := by
    intro x hx
    have : x ∈ pos.map g := hperm.mem_iff.mp hx
    obtain ⟨t, _, rfl⟩ := List.mem_map.mp this
    rfl
  have hmempos : ∀ x ∈ sorted, 0 < x.1 := by
    intro x hx
    have : x ∈ pos.map g := hperm.mem_iff.mp hx
    obtain ⟨t, ht, rfl⟩ := List.mem_map.mp this
    exact of_decide_eq_true (List.mem_filter.mp ht).2
  refine ⟨?_, ?_, ?_, ?_⟩
  · intro t ht
    obtain ⟨x, hx, rfl⟩ := List.mem_map.mp ht
    have hx' : x ∈ sorted := List.take_sublist k sorted |>.mem hx
    have := hmempos x hx'
    rwa [hmem x hx'] at this
  · have hsort : sorted.Pairwise scoreGE := List.sorted_insertionSort scoreGE (pos.map g)
    have htake : (sorted.take k).Pairwise scoreGE :=
      hsort.sublist (List.take_sublist k sorted)
    have htake2 : (sorted.take k).Pairwise
        (fun a b => searchScore query b.2 ≤ searchScore query a.2) := by
      refine htake.imp_of_mem ?_
      intro a b ha hb hab
      have ha' := hmem a (List.take_sublist k sorted |>.mem ha)
      have hb' := hmem b (List.take_sublist k sorted |>.mem hb)
      rw [← ha', ← hb']
      exact hab
    exact List.pairwise_map.mpr htake2
  · rw [List.length_map, List.length_take, hperm.length_eq, List.length_map]
  · intro hle
    have hlen : sorted.length = pos.length := by
      rw [hperm.length_eq, List.length_map]
    have : sorted.take k = sorted := List.take_of_length_le (by rw [hlen]; exact hle)
    rw [this]
    have : (sorted.map (fun st => st.2)).Perm ((pos.map g).map (fun st => st.2)) :=
      hperm.map _
    rw [List.map_map] at this
    have hid : ((fun st : Nat × String => st.2) ∘ g) = id := rfl
    rw [hid, List.map_id] at this
    exact this

/-! ## The two LFU caches -/

theorem LFUCache.popitem_length_eq {κ ν : Type} [DecidableEq κ] (c : LFUCache κ ν)
    (h : c.entries ≠ []) : c.popitem.entries.length = c.entries.length - 1 := by
  unfold LFUCache.popitem
  match hes : c.entries with
  | [] => exact absurd hes h
  | e :: es =>
    obtain ⟨b, hb, hbmem, _⟩ := mostCommon1_spec e es
    rw [hb]
    simp only
    rw [List.length_eraseP_of_mem hbmem (by simp)]

theorem evictLoopFuel_maxsize {κ ν : Type} [DecidableEq κ] (n : Nat) (c : LFUCache κ ν) :
    (evictLoopFuel n c).maxsize = c.maxsize := by
  induction n generalizing c with
  | zero => rfl
  | succ n ih =>
    unfold evictLoopFuel
    split
    · rw [ih, LFUCache.popitem_maxsize]
    · rfl

theorem evictLoopFuel_length {κ ν : Type} [DecidableEq κ] (n : Nat) (c : LFUCache κ ν)
    (hm : 0 < c.maxsize) (hn : c.entries.length ≤ n) :
    (evictLoopFuel n c).entries.length < c.maxsize := by
  induction n generalizing c with
  | zero =>
    have : c.entries.length = 0 := Nat.le_zero.mp hn
    simpa [evictLoopFuel, this] using hm
  | succ n ih =>
    unfold evictLoopFuel
    split
    case isTrue h =>
      have hne : c.entries ≠ [] := fun hnil => h.2 (by simp [hnil])
      have hlt := LFUCache.popitem_length_lt c hne
      have hm' : 0 < c.popitem.maxsize := by rwa [LFUCache.popitem_maxsize]
      have hle : c.popitem.entries.length ≤ n := by omega
      have := ih c.popitem hm' hle
      rwa [LFUCache.popitem_maxsize] at this
    case isFalse h =>
      rcases Decidable.not_and_iff_or_not.mp h with h1 | h2
      · omega
      · have : c.entries.length = 0 := Decidable.not_not.mp h2
        omega

theorem evictLoop_length {κ ν : Type} [DecidableEq κ] (c : LFUCache κ ν)
    (hm : 0 < c.maxsize) : c.evictLoop.entries.length < c.maxsize :=
  evictLoopFuel_length c.entries.length c hm (Nat.le_refl _)

theorem evictLoop_maxsize {κ ν : Type} [DecidableEq κ] (c : LFUCache κ ν) :
    c.evictLoop.maxsize = c.maxsize :=
  evictLoopFuel_maxsize c.entries.length c

theorem evictLoopFuel_of_not_full {κ ν : Type} [DecidableEq κ] (n : Nat) (c : LFUCache κ ν)
    (h : ¬ c.maxsize < c.entries.length + 1) : evictLoopFuel n c = c := by
  cases n with
  | zero => rfl
  | succ n =>
    unfold evictLoopFuel
    rw [if_neg]
    intro hc
    exact h hc.1

/-- On a full cache (`0 < maxsize = length`) the eviction loop is exactly
one `popitem`. -/
theorem evictLoop_of_full {κ ν : Type} [DecidableEq κ] (c : LFUCache κ ν)
    (hm : 0 < c.maxsize) (hfull : c.entries.length = c.maxsize) :
    c.evictLoop = c.popitem := by
  unfold LFUCache.evictLoop
  obtain ⟨f, hf⟩ : ∃ f, c.entries.length = f + 1 := ⟨c.entries.length - 1, by omega⟩
  rw [hf]
  unfold evictLoopFuel
  rw [if_pos (by constructor <;> omega)]
  have hne : c.entries ≠ [] := by
    intro hnil
    rw [hnil] at hf
    simp at hf
  apply evictLoopFuel_of_not_full
  rw [LFUCache.popitem_maxsize, LFUCache.popitem_length_eq c hne]
  omega

/-- C5: `pdf_cache` is keyed by PDF path (a `String`) with capacity 10 and
`query_cache` by the `(query, pdf_path, session_id)` triple with capacity
100; an insertion into a cache within capacity leaves it within capacity;
and an insertion of a new key into a full cache evicts an entry whose
stored counter is maximal — i.e. least-frequently-accessed, as the counter
is the negation of the access count — and appends the new entry (with one
recorded access). -/
theorem lfu_cache_spec :
    pdf_cache.maxsize = 10 ∧ query_cache.maxsize = 100 ∧
    (∀ (κ ν : Type) [DecidableEq κ] (c : LFUCache κ ν) (k : κ) (v : ν),
      0 < c.maxsize → c.entries.length ≤ c.maxsize →
      (c.set k v).entries.length ≤ c.maxsize) ∧
    (∀ (κ ν : Type) [DecidableEq κ] (c : LFUCache κ ν) (k : κ) (v : ν),
      0 < c.maxsize → c.entries.length = c.maxsize → alookup c.entries k = none →
      ∃ b ∈ c.entries, (∀ x ∈ c.entries, x.2.2 ≤ b.2.2) ∧
        (c.set k v).entries =
          c.entries.eraseP (fun x => decide (x.1 = b.1)) ++ [(k, v, -1)]) := by
  refine ⟨rfl, rfl, ?_, ?_⟩
  · intro κ ν _ c k v hm hle
    unfold LFUCache.set
    split
    · simpa using hle
    · simp only [List.length_append, List.length_singleton]
      have h1 := evictLoop_length c hm
      omega
  · intro κ ν _ c k v hm hfull hnone
    have hset : (c.set k v).entries = c.evictLoop.entries ++ [(k, v, -1)] := by
      unfold LFUCache.set
      rw [if_neg (by simp [hnone])]
    have hne : c.entries ≠ [] := by
      intro hnil
      rw [hnil] at hfull
      simp at hfull
      omega
    obtain ⟨e, es, hes⟩ : ∃ e es, c.entries = e :: es := by
      cases hcs : c.entries with
      | nil => exact absurd hcs hne
      | cons e es => exact ⟨e, es, rfl⟩
    obtain ⟨b, hb, hbmem, hbmax⟩ := mostCommon1_spec e es
    have hpop : c.popitem.entries = (e :: es).eraseP (fun x => decide (x.1 = b.1)) := by
      unfold LFUCache.popitem
      rw [hes, hb]
    refine ⟨b, by rw [hes]; exact hbmem, fun x hx => hbmax x (hes ▸ hx), ?_⟩
    rw [hset, evictLoop_of_full c hm hfull, hpop, hes]

/-! ## Memory reset and endpoint error handling -/

theorem alookup_eq_none_of_not_mem_keys {κ ν : Type} [DecidableEq κ]
    (m : List (κ × ν)) (k : κ) (h : k ∉ m.map Prod.fst) : alookup m k = none := by
  induction m with
  | nil => rfl
  | cons e t ih =>
    have hk : ¬ k = e.1 := by
      intro hk
      exact h (by simp [hk])
    have ht : k ∉ t.map Prod.fst := fun hmem => h (by simp [hmem])
    simp [alookup, hk, ih ht]

theorem alookup_aerase_self {κ ν : Type} [DecidableEq κ] (m : List (κ × ν)) (k : κ)
    (hnd : (m.map Prod.fst).Nodup) : alookup (aerase m k) k = none := by
  induction m with
  | nil => rfl
  | cons e t ih =>
    by_cases hk : e.1 = k
    · have he : aerase (e :: t) k = t := by
        unfold aerase
        rw [List.eraseP_cons_of_pos (by simp [hk])]
      rw [he]
      apply alookup_eq_none_of_not_mem_keys
      rw [List.map_cons] at hnd
      have h1 := (List.nodup_cons.mp hnd).1
      rwa [hk] at h1
    · have he : aerase (e :: t) k = e :: aerase t k := by
        unfold aerase
        rw [List.eraseP_cons_of_neg (by simp [hk])]
      rw [he]
      have hkk : ¬ k = e.1 := fun hkk => hk hkk.symm
      rw [List.map_cons] at hnd
      have hnd' : (t.map Prod.fst).Nodup := (List.nodup_cons.mp hnd).2
      simp [alookup, hkk, ih hnd']

/-- C6: for every session id, resetting the session memory leaves that
session's history and messages empty (as observed by `get_memory`), and
leaves every other session's stored record unchanged. -/
theorem reset_memory_spec (sessions : List (String × MemRec)) (session_id : String) :
    (get_memory (reset_memory sessions session_id) session_id).1.history = [] ∧
    (get_memory (reset_memory sessions session_id) session_id).1.messages = [] ∧
    (∀ s', s' ≠ session_id →
      alookup (reset_memory sessions session_id) s' = alookup sessions s') := by
  unfold reset_memory
  split
  case isTrue h =>
    have h1 : alookup (aset sessions session_id { history := [], messages := [] })
        session_id = some { history := [], messages := [] } :=
      alookup_aset_self sessions session_id _
    unfold get_memory
    rw [h1]
    exact ⟨rfl, rfl, fun s' hs' => alookup_aset_ne sessions session_id s' _ hs'⟩
  case isFalse h =>
    have h0 : alookup sessions session_id = none := Option.not_isSome_iff_eq_none.mp h
    unfold get_memory
    rw [h0]
    exact ⟨rfl, rfl, fun s' _ => rfl⟩

/-- C7: for a `pdf_id` that is not in the uploaded-PDF map, the query
endpoint and the delete endpoint both return an HTTP 404 error and leave
the map unchanged. -/
theorem unknown_pdf_id_404 (env : Env) (pdf_id question session_id : String)
    (m : List (String × String)) (h : alookup m pdf_id = none) :
    query_pdf pdf_id question session_id m =
      (Except.error { status_code := 404,
                      detail := "❌ pdf_id '" ++ pdf_id ++ "' not found. Please upload the PDF first!" }, m) ∧
    delete_pdf env pdf_id m =
      (Except.error { status_code := 404,
                      detail := "❌ pdf_id '" ++ pdf_id ++ "' not found" }, m) := by
  constructor
  · unfold query_pdf
    rw [h]
    rfl
  · unfold delete_pdf
    rw [h]

/-- C2: the upload endpoint rejects a filename not ending in `.pdf` with a
400 error and an unchanged map; rejects a payload over 10MB likewise; and
otherwise stores the payload under the fresh temporary name: the new map
is the old one extended with `basename tmp_path ↦ tmp_path`, and the
returned `pdf_id` resolves to the stored path. -/
theorem upload_pdf_spec (filename : String) (content : List Nat) (tmp_path : String)
    (m : List (String × String)) :
    (pyEndsWith filename ".pdf" = false →
      upload_pdf filename content tmp_path m =
        (Except.error { status_code := 400, detail := "❌ Only PDF files allowed" }, m)) ∧
    (pyEndsWith filename ".pdf" = true → 10 * 1024 * 1024 < content.length →
      upload_pdf filename content tmp_path m =
        (Except.error { status_code := 400, detail := "❌ File too large (max 10MB)" }, m)) ∧
    (pyEndsWith filename ".pdf" = true → content.length ≤ 10 * 1024 * 1024 →
      alookup m (basename tmp_path) = none →
      upload_pdf filename content tmp_path m =
        (Except.ok { pdf_id := basename tmp_path, filename := filename,
                     message := "✅ PDF uploaded successfully (minimal version)" },
          m ++ [(basename tmp_path, tmp_path)]) ∧
      alookup (m ++ [(basename tmp_path, tmp_path)]) (basename tmp_path) = some tmp_path) := by
  refine ⟨?_, ?_, ?_⟩
  · intro hf
    unfold upload_pdf
    rw [hf]
    rfl
  · intro hf hsize
    unfold upload_pdf
    rw [hf]
    simp only [Bool.true_eq_false, if_false]
    rw [if_pos (by omega)]
  · intro hf hsize hfresh
    constructor
    · unfold upload_pdf
      rw [hf]
      simp only [Bool.true_eq_false, if_false]
      rw [if_neg (by omega)]
      unfold aset
      rw [hfresh]
      rfl
    · rw [alookup_append, hfresh]
      simp [alookup]

/-- C10: when the stored file's removal raises, the delete endpoint returns
an HTTP 500 error, but the `pdf_id` has already been popped from the map:
the response reports failure while the mapping is gone. -/
theorem delete_pdf_failure_removes_mapping (env : Env) (pdf_id pdf_path err : String)
    (m : List (String × String)) (hnd : (m.map Prod.fst).Nodup)
    (hfound : alookup m pdf_id = some pdf_path)
    (hex : env.fs_exists pdf_path = true)
    (hrm : env.fs_remove pdf_path = Except.error err) :
    delete_pdf env pdf_id m =
      (Except.error { status_code := 500, detail := "❌ Failed to delete: " ++ err },
        aerase m pdf_id) ∧
    alookup (aerase m pdf_id) pdf_id = none := by
  constructor
  · unfold delete_pdf
    rw [hfound]
    simp only [hex, if_true]
    rw [hrm]
  · exact alookup_aerase_self m pdf_id hnd

theorem get_memory_history (sessions : List (String × MemRec)) (session_id : String) :
    (get_memory sessions session_id).1.history = histOf sessions session_id := by
  unfold get_memory histOf
  cases alookup sessions session_id <;> rfl

/-- C8: `load_pdf_chunks` returns `[]` (it is total, so it never raises)
when the file does not exist or when the PDF reader raises; and when the
`langchain_groq` import fails or the LLM call raises, the pipeline body
still answers, with the mock answer built from the query and the retrieved
context. -/
theorem pipeline_error_handling (env : Env) (pdf_path user_query session_id : String)
    (st : PipeState) :
    (env.fs_exists pdf_path = false → load_pdf_chunks env pdf_path = []) ∧
    (∀ e, env.read_pdf pdf_path = Except.error e → load_pdf_chunks env pdf_path = []) ∧
    ((env.import_ok = false ∨ LLMFails env) →
      (pipeline_body env user_query pdf_path session_id st).1.answer =
        mock_answer_of user_query
          (extract_relevant_clause env st.pdf_cache pdf_path user_query 10).1.1) := by
  refine ⟨?_, ?_, ?_⟩
  · intro hex
    unfold load_pdf_chunks
    rw [hex]
    rfl
  · intro e herr
    unfold load_pdf_chunks
    by_cases hex : env.fs_exists pdf_path = false
    · rw [hex]
      rfl
    · have hex' : env.fs_exists pdf_path = true := by
        revert hex
        cases env.fs_exists pdf_path <;> simp
      rw [hex']
      simp only [Bool.true_eq_false, if_false]
      rw [herr]
  · intro hllm
    unfold pipeline_body
    cases hkey : env.groq_api_key with
    | none => rfl
    | some key =>
      simp only
      cases himp : env.import_ok with
      | false => rfl
      | true =>
        rcases hllm with hfail | hfail
        · rw [himp] at hfail
          exact absurd hfail (by simp)
        · obtain ⟨err, herr⟩ := hfail (prompt_template_of
            (history_text_of (get_memory st.sessions session_id).1.history)
            user_query
            (extract_relevant_clause env st.pdf_cache pdf_path user_query 10).1.1
            (if String.intercalate "\n"
                (((extract_relevant_clause env st.pdf_cache pdf_path user_query 10).1.2).map
                  (fun m => "- Source: " ++ m.pdf_name ++ ", Page: " ++ m.page)) = ""
             then "No metadata available."
             else String.intercalate "\n"
                (((extract_relevant_clause env st.pdf_cache pdf_path user_query 10).1.2).map
                  (fun m => "- Source: " ++ m.pdf_name ++ ", Page: " ++ m.page))))
          rw [herr]
          rfl

theorem mock_finish_histOf (user_query context : String) (mi : List MetaInfo)
    (hist : List Msg) (memory : MemRec) (ss : List (String × MemRec)) (sid : String) :
    histOf (mock_finish user_query context mi hist memory ss sid).2 sid =
      hist ++ [{ role := "User", content := user_query },
        { role := "Assistant", content := mock_answer_of user_query context }] := by
  unfold mock_finish histOf
  rw [alookup_aset_self]

theorem histOf_aset_self (ss : List (String × MemRec)) (sid : String) (r : MemRec) :
    histOf (aset ss sid r) sid = r.history := by
  unfold histOf
  rw [alookup_aset_self]

theorem pipeline_body_history (env : Env) (user_query pdf_path session_id : String)
    (st : PipeState) :
    ∃ l, histOf (pipeline_body env user_query pdf_path session_id st).2.sessions session_id =
        histOf st.sessions session_id ++ l ∧
      ({ role := "User", content := user_query } : Msg) ∈ l ∧
      ∃ a, ({ role := "Assistant", content := a } : Msg) ∈ l := by
  unfold pipeline_body
  dsimp only
  have hh : histOf st.sessions session_id = (get_memory st.sessions session_id).1.history :=
    (get_memory_history st.sessions session_id).symm
  split
  · refine ⟨_, by rw [mock_finish_histOf, hh], ?_, ?_⟩
    · exact List.mem_cons_self _ _
    · exact ⟨_, List.mem_cons_of_mem _ (List.mem_cons_self _ _)⟩
  · split
    · split
      · refine ⟨_, by rw [histOf_aset_self]; dsimp only; rw [hh, List.append_assoc], ?_, ?_⟩
        · exact List.mem_append_left _ (List.mem_cons_self _ _)
        · exact ⟨_, List.mem_append_right _ (List.mem_cons_self _ _)⟩
      · refine ⟨_, by rw [mock_finish_histOf, hh, List.append_assoc], ?_, ?_⟩
        · exact List.mem_append_left _ (List.mem_cons_self _ _)
        · exact ⟨_, List.mem_append_right _ (List.mem_cons_of_mem _ (List.mem_cons_self _ _))⟩
    · refine ⟨_, by rw [mock_finish_histOf, hh], ?_, ?_⟩
      · exact List.mem_cons_self _ _
      · exact ⟨_, List.mem_cons_of_mem _ (List.mem_cons_self _ _)⟩

/-- C9: a `(query, pdf_path, session_id)` key already in the answer cache
makes `run_full_pipeline` return the cached result with the session map
untouched (no User or Assistant message appended), while an uncached call
appends a User message and an Assistant message to the session's history. -/
theorem run_full_pipeline_cache_spec (env : Env) (user_query pdf_path session_id : String)
    (st : PipeState) :
    (∀ v cnt, alookup st.query_cache.entries (user_query, pdf_path, session_id) =
        some (v, cnt) →
      (run_full_pipeline env user_query pdf_path session_id st).1 = v ∧
      (run_full_pipeline env user_query pdf_path session_id st).2.sessions = st.sessions) ∧
    (alookup st.query_cache.entries (user_query, pdf_path, session_id) = none →
      ∃ l, histOf (run_full_pipeline env user_query pdf_path session_id st).2.sessions
          session_id = histOf st.sessions session_id ++ l ∧
        ({ role := "User", content := user_query } : Msg) ∈ l ∧
        ∃ a, ({ role := "Assistant", content := a } : Msg) ∈ l) := by
  constructor
  · intro v cnt h
    unfold run_full_pipeline LFUCache.get
    dsimp only
    rw [h]
    exact ⟨rfl, rfl⟩
  · intro h
    unfold run_full_pipeline LFUCache.get
    dsimp only
    rw [h]
    exact pipeline_body_history env user_query pdf_path session_id st

/-- C1 is false of the code: for the uploaded pdf `doc1` the endpoint
returns its fixed mock (metadata content `"Mock response"`), not the
result of the keyword-search pipeline (which retrieves the matching page
text `"insurance policy covers fire damage"` for the query `policy`). -/
theorem claimC1_counterexample : ¬ claimC1_statement := by
  intro hclaim
  obtain ⟨r, hr, _, hmeta⟩ := hclaim [("doc1", "/tmp/doc1")] env_c1 st_c1
    "doc1" "/tmp/doc1" "policy" "default" rfl
  have hro : (query_pdf "doc1" "policy" "default" [("doc1", "/tmp/doc1")]).1 =
      Except.ok { answer := endpoint_mock_answer "policy" "doc1" "default",
                  metadata := [{ content := "Mock response", pdf_name := "doc1",
                                 page := "N/A" }],
                  session_id := "default" } := rfl
  have hr' := Except.ok.inj (hro.symm.trans hr)
  rw [← hr'] at hmeta
  have hpm : (run_full_pipeline env_c1 "policy" "/tmp/doc1" "default" st_c1).1.metadata.map
      MetaInfo.content = ["insurance policy covers fire damage"] := by decide
  rw [hpm] at hmeta
  exact absurd hmeta (by decide)

/-- C1 (amended): for every uploaded `pdf_id` the query endpoint returns a
fixed mock answer built only from the question, `pdf_id` and session id,
with mock metadata, leaving the map unchanged — it does not invoke the
search pipeline; the keyword search plus optional LLM call with canned
fallback lives in the pipeline body, which produces the canned fallback
answer when no API key is configured. -/
theorem query_pdf_returns_fixed_mock (pdf_id pdf_path question session_id : String)
    (m : List (String × String)) (env : Env) (st : PipeState)
    (h : alookup m pdf_id = some pdf_path) :
    query_pdf pdf_id question session_id m =
      (Except.ok { answer := endpoint_mock_answer question pdf_id session_id,
                   metadata := [{ content := "Mock response", pdf_name := pdf_id,
                                  page := "N/A" }],
                   session_id := session_id }, m) ∧
    (env.groq_api_key = none →
      (pipeline_body env question pdf_path session_id st).1.answer =
        mock_answer_of question
          (extract_relevant_clause env st.pdf_cache pdf_path question 10).1.1) := by
  constructor
  · unfold query_pdf
    rw [h]
    rfl
  · intro hkey
    unfold pipeline_body
    rw [hkey]
    rfl

theorem query_pdf_returns_fixed_mock_witness :
    query_pdf "doc1" "policy" "default" [("doc1", "/tmp/doc1")] =
      (Except.ok { answer := endpoint_mock_answer "policy" "doc1" "default",
                   metadata := [{ content := "Mock response", pdf_name := "doc1",
                                  page := "N/A" }],
                   session_id := "default" }, [("doc1", "/tmp/doc1")]) ∧
    (pipeline_body env_c1 "policy" "/tmp/doc1" "default" st_c1).1.answer =
      mock_answer_of "policy"
        (extract_relevant_clause env_c1 st_c1.pdf_cache "/tmp/doc1" "policy" 10).1.1 :=
  ⟨(query_pdf_returns_fixed_mock "doc1" "/tmp/doc1" "policy" "default"
      [("doc1", "/tmp/doc1")] env_c1 st_c1 rfl).1,
   (query_pdf_returns_fixed_mock "doc1" "/tmp/doc1" "policy" "default"
      [("doc1", "/tmp/doc1")] env_c1 st_c1 rfl).2 rfl⟩

theorem upload_pdf_spec_witness :
    upload_pdf "a.txt" [0] "/tmp/t1" [] =
      (Except.error { status_code := 400, detail := "❌ Only PDF files allowed" }, []) ∧
    upload_pdf "a.pdf" (List.replicate (10 * 1024 * 1024 + 1) 0) "/tmp/t1" [] =
      (Except.error { status_code := 400, detail := "❌ File too large (max 10MB)" }, []) ∧
    (upload_pdf "a.pdf" [0] "/tmp/t1" [] =
      (Except.ok { pdf_id := basename "/tmp/t1", filename := "a.pdf",
                   message := "✅ PDF uploaded successfully (minimal version)" },
        [] ++ [(basename "/tmp/t1", "/tmp/t1")]) ∧
      alookup ([] ++ [(basename "/tmp/t1", "/tmp/t1")]) (basename "/tmp/t1") =
        some "/tmp/t1") :=
  ⟨(upload_pdf_spec "a.txt" [0] "/tmp/t1" []).1 rfl,
   (upload_pdf_spec "a.pdf" (List.replicate (10 * 1024 * 1024 + 1) 0) "/tmp/t1" []).2.1 rfl
     (by rw [List.length_replicate]; exact Nat.lt_succ_self _),
   (upload_pdf_spec "a.pdf" [0] "/tmp/t1" []).2.2 rfl (by decide) rfl⟩

theorem simple_text_search_spec_witness :
    (simple_text_search "a b" ["xay", "z", "ab"] 5).Perm
      (["xay", "z", "ab"].filter (fun t => 0 < searchScore "a b" t)) :=
  (simple_text_search_spec "a b" ["xay", "z", "ab"] 5).2.2.2 (by decide)

theorem lfu_cache_spec_witness :
    (cache_w.set "c" 7).entries.length ≤ cache_w.maxsize ∧
    (∃ b ∈ cache_w.entries, (∀ x ∈ cache_w.entries, x.2.2 ≤ b.2.2) ∧
      (cache_w.set "c" 7).entries =
        cache_w.entries.eraseP (fun x => decide (x.1 = b.1)) ++ [("c", 7, -1)]) :=
  ⟨lfu_cache_spec.2.2.1 String Nat cache_w "c" 7 (by decide) (by decide),
   lfu_cache_spec.2.2.2 String Nat cache_w "c" 7 (by decide) (by decide) (by decide)⟩

theorem reset_memory_spec_witness :
    (get_memory (reset_memory sessions_w "s1") "s1").1.history = [] ∧
    alookup (reset_memory sessions_w "s1") "s2" = alookup sessions_w "s2" :=
  ⟨(reset_memory_spec sessions_w "s1").1,
   (reset_memory_spec sessions_w "s1").2.2 "s2" (by decide)⟩

theorem unknown_pdf_id_404_witness :
    query_pdf "nope" "q" "s" [("doc1", "/tmp/doc1")] =
      (Except.error { status_code := 404,
                      detail := "❌ pdf_id '" ++ "nope" ++ "' not found. Please upload the PDF first!" },
        [("doc1", "/tmp/doc1")]) ∧
    delete_pdf env_c1 "nope" [("doc1", "/tmp/doc1")] =
      (Except.error { status_code := 404,
                      detail := "❌ pdf_id '" ++ "nope" ++ "' not found" },
        [("doc1", "/tmp/doc1")]) :=
  unknown_pdf_id_404 env_c1 "nope" "q" "s" [("doc1", "/tmp/doc1")] rfl

theorem pipeline_error_handling_witness :
    load_pdf_chunks env_c1 "/missing" = [] ∧
    load_pdf_chunks env_rmfail "/any" = [] ∧
    (pipeline_body env_c1 "policy" "/tmp/doc1" "default" st_c1).1.answer =
      mock_answer_of "policy"
        (extract_relevant_clause env_c1 st_c1.pdf_cache "/tmp/doc1" "policy" 10).1.1 :=
  ⟨(pipeline_error_handling env_c1 "/missing" "policy" "default" st_c1).1 rfl,
   (pipeline_error_handling env_rmfail "/any" "policy" "default" st_c1).2.1 "r" rfl,
   (pipeline_error_handling env_c1 "/tmp/doc1" "policy" "default" st_c1).2.2 (Or.inl rfl)⟩

theorem run_full_pipeline_cache_spec_witness :
    ((run_full_pipeline env_c1 "q" "/p" "s" st_hit).1 =
      { answer := "cached", metadata := [] } ∧
     (run_full_pipeline env_c1 "q" "/p" "s" st_hit).2.sessions = st_hit.sessions) ∧
    (∃ l, histOf (run_full_pipeline env_c1 "policy" "/tmp/doc1" "default" st_c1).2.sessions
        "default" = histOf st_c1.sessions "default" ++ l ∧
      ({ role := "User", content := "policy" } : Msg) ∈ l ∧
      ∃ a, ({ role := "Assistant", content := a } : Msg) ∈ l) :=
  ⟨(run_full_pipeline_cache_spec env_c1 "q" "/p" "s" st_hit).1
      { answer := "cached", metadata := [] } (-1) rfl,
   (run_full_pipeline_cache_spec env_c1 "policy" "/tmp/doc1" "default" st_c1).2 rfl⟩

theorem delete_pdf_failure_removes_mapping_witness :
    delete_pdf env_rmfail "doc1" [("doc1", "/tmp/doc1")] =
      (Except.error { status_code := 500,
                      detail := "❌ Failed to delete: " ++ "permission denied" },
        aerase [("doc1", "/tmp/doc1")] "doc1") ∧
    alookup (aerase [("doc1", "/tmp/doc1")] "doc1") "doc1" = none :=
  delete_pdf_failure_removes_mapping env_rmfail "doc1" "/tmp/doc1" "permission denied"
    [("doc1", "/tmp/doc1")] (by decide) rfl rfl rfl
